import Mathlib

/-!
Verification of the URL-shortener core of dohoudaniel/myshortenedurl.

The data model is the `shortUrlSchema` of `src/models/ShortUrl.js`:
fields `full` (required), `short` (required, unique), `clicks` (Number,
default 0), `userId` (required), `createdAt` (default now).  The store is
modelled as a list of documents; the MongoDB unique index on `short` is
modelled as the duplicate check inside `create`, and mongoose's `required`
validators (which reject empty strings) run before the insert.

The operations are the Express handlers of `src/server.js`:
  * `POST /shortUrls`   — `ShortUrl.create({ full, userId })` (`createHandler`)
  * `GET  /home`        — `ShortUrl.find({ userId })` (`homeHandler`)
  * `GET  /short/:code` — `findOne`, 404 when absent, else
                          `doc.clicks++; doc.save(); redirect(doc.full)`
                          (`resolveHandler`)

For concurrency claims the redirect handler is additionally split into its
two store interactions (the `findOne` read and the `save` write) and
executed under an explicit interleaving schedule (`runSched`).
-/

/-- A document of `shortUrlSchema` (src/models/ShortUrl.js, lines 13-37). -/
structure Link where
  full : String
  short : String
  clicks : Int
  userId : String
  createdAt : Nat
deriving DecidableEq, Repr

/-- The link store: the `shorturls` collection. -/
abbrev Store := List Link

/-- `ShortUrl.findOne({ short: code })`: first stored document whose
`short` field equals `code` (FindByCode). -/
def findOne (code : String) (s : Store) : Option Link :=
  s.find? (fun l => l.short == code)

/-- Failures of `ShortUrl.create`: mongoose's `required` validators reject
an empty string field, and the unique index on `short` rejects a
duplicate code. -/
inductive CreateError where
  | ValidationError
  | DuplicateCode
deriving DecidableEq, Repr

/-- `ShortUrl.create({ full, short, userId })`: the schema's `required`
validators run first, then the unique index on `short` rejects a
duplicate; on success the document is stored with `clicks` defaulted
to 0 and `createdAt` to the current time. -/
def create (full short userId : String) (now : Nat) (s : Store) :
    Except CreateError (Link × Store) :=
  if full = "" ∨ short = "" ∨ userId = "" then
    .error .ValidationError
  else if (findOne short s).isSome then
    .error .DuplicateCode
  else
    let l : Link := ⟨full, short, 0, userId, now⟩
    .ok (l, s ++ [l])

/-- `doc.save()`: writes the in-memory document back over the stored one,
matched by its unique `short` code. -/
def saveDoc (u : Link) (s : Store) : Store :=
  s.map (fun v => if v.short == u.short then u else v)

/-- The `GET /short/:shortUrl` handler of src/server.js (lines 305-317):
`findOne`; when absent render 404 leaving the store alone; when found
increment `clicks` on the fetched document, save it, and redirect to its
`full` URL. -/
def resolveHandler (code : String) (s : Store) : Option String × Store :=
  match findOne code s with
  | none => (none, s)
  | some u =>
      let u' : Link := { u with clicks := u.clicks + 1 }
      (some u.full, saveDoc u' s)

/-- The `GET /home` handler of src/server.js (lines 276-286):
`ShortUrl.find({ userId })`, rendered; the store is not modified. -/
def homeHandler (userId : String) (s : Store) : List Link × Store :=
  (s.filter (fun l => l.userId == userId), s)

/-- Modelled from the spec: `models/shorten.js` — the Code Generator that
gives `short` its default value, required by src/server.js but not present
under src/ — per the spec Allocate() produces a non-empty candidate from a
fixed alphabet that does not collide with any stored code.  Modelled
deterministically as a string of the letter `a` one longer than every
stored code. -/
def allocate (s : Store) : String :=
  String.mk (List.replicate ((s.map (fun l => l.short.length)).foldr max 0 + 1) 'a')

/-- The `POST /shortUrls` handler of src/server.js (lines 289-302):
Create(targetUrl, ownerId) — stores `{ full: fullUrl, userId }`, the code
being supplied by the generator default. -/
def createHandler (full userId : String) (now : Nat) (s : Store) :
    Except CreateError (Link × Store) :=
  create full (allocate s) userId now s

/-! ### Interleaving semantics for the redirect handler

The redirect handler touches the store twice: the `findOne` read and the
`save` write, with the increment applied in between to the in-memory
document only.  A concurrent execution is a schedule interleaving the
steps of several in-flight handlers. -/

/-- The per-request state of an in-flight `GET /short/:code` handler:
not yet started, holding the fetched document (after `findOne`, before
`save`), or finished with its response. -/
inductive HandlerPhase where
  | start (code : String)
  | gotDoc (code : String) (doc : Link)
  | done (result : Option String)
deriving DecidableEq, Repr

/-- One store interaction of an in-flight redirect handler: the `findOne`
read, or the increment-and-`save` write of the previously fetched
document. -/
def stepHandler : HandlerPhase → Store → HandlerPhase × Store
  | .start c, s =>
      match findOne c s with
      | none => (.done none, s)
      | some u => (.gotDoc c u, s)
  | .gotDoc _ u, s =>
      let u' : Link := { u with clicks := u.clicks + 1 }
      (.done (some u.full), saveDoc u' s)
  | .done r, s => (.done r, s)

/-- Run one step of the i-th in-flight handler. -/
def stepAt (i : Nat) (hs : List HandlerPhase) (s : Store) :
    List HandlerPhase × Store :=
  match hs[i]? with
  | none => (hs, s)
  | some h =>
      let p := stepHandler h s
      (hs.set i p.1, p.2)

/-- Run a schedule: at each tick the named handler performs its next store
interaction. -/
def runSched : List Nat → List HandlerPhase → Store → List HandlerPhase × Store
  | [], hs, s => (hs, s)
  | i :: rest, hs, s =>
      let p := stepAt i hs s
      runSched rest p.1 p.2

/-- Specification-side predicate: every stored click counter is
non-negative. -/
def nonnegClicks (s : Store) : Prop :=
  ∀ l ∈ s, 0 ≤ l.clicks

/-- Specification-side relation: the two stores have the same shape and
every counter in the second is at least the matching counter in the
first. -/
def clicksLe (s t : Store) : Prop :=
  List.Forall₂ (fun x y => x.clicks ≤ y.clicks) s t

/-- Specification-side store transformer: bump only the `clicks` field of
the documents whose code is `c`, leaving every other field and every
other document untouched. -/
def bumpAt (c : String) (s : Store) : Store :=
  s.map (fun v => if v.short = c then { v with clicks := v.clicks + 1 } else v)

/-! ### Helper lemmas -/

theorem findOne_eq_none_iff (c : String) (s : Store) :
    findOne c s = none ↔ ∀ l ∈ s, l.short ≠ c := by
  simp [findOne, List.find?_eq_none]

theorem findOne_short {c : String} {s : Store} {u : Link}
    (h : findOne c s = some u) : u.short = c := by
  have := List.find?_some h
  simpa using this

theorem findOne_mem {c : String} {s : Store} {u : Link}
    (h : findOne c s = some u) : u ∈ s :=
  List.mem_of_find?_eq_some h

theorem findOne_isSome_iff (c : String) (s : Store) :
    (findOne c s).isSome = true ↔ c ∈ s.map Link.short := by
  rw [findOne, List.find?_isSome]
  constructor
  · rintro ⟨x, hx, hb⟩
    exact List.mem_map.2 ⟨x, hx, by simpa using hb⟩
  · rintro hm
    obtain ⟨x, hx, he⟩ := List.mem_map.1 hm
    exact ⟨x, hx, by simp [he]⟩

theorem resolveHandler_none {c : String} {s : Store}
    (h : findOne c s = none) : resolveHandler c s = (none, s) := by
  simp [resolveHandler, h]

theorem findOne_saveDoc {c : String} {s : Store} {u : Link} (u' : Link)
    (h : findOne c s = some u) (hs : u'.short = u.short) :
    findOne c (saveDoc u' s) = some u' := by
  induction s with
  | nil => simp [findOne] at h
  | cons a t ih =>
    have huc : u.short = c := findOne_short h
    by_cases ha : a.short = c
    · have hua : u = a := by
        have : findOne c (a :: t) = some a := by
          simp [findOne, List.find?_cons_of_pos, ha]
        rw [h] at this
        exact Option.some.inj this
      have hcond : (a.short == u'.short) = true := by
        simp [hs, hua]
      simp only [saveDoc, List.map_cons, hcond, if_pos rfl, if_true]
      have : (u'.short == c) = true := by simp [hs, huc, ha]
      simp [findOne, List.find?_cons_of_pos, this]
    · have ht : findOne c t = some u := by
        have : findOne c (a :: t) = findOne c t := by
          simp [findOne, List.find?_cons_of_neg, ha]
        rw [← this, h]
      have hcond : (a.short == u'.short) = false := by
        simp [hs, huc]
        intro hac
        exact ha (hac ▸ rfl)
      simp only [saveDoc, List.map_cons, hcond, Bool.false_eq_true, if_false]
      have hac : (a.short == c) = false := by simp [ha]
      simpa [findOne, saveDoc, List.find?_cons_of_neg, ha, hac] using ih ht

theorem saveDoc_eq_bumpAt {c : String} {s : Store} {u : Link}
    (hnd : (s.map Link.short).Nodup) (h : findOne c s = some u) :
    saveDoc { u with clicks := u.clicks + 1 } s = bumpAt c s := by
  have huc : u.short = c := findOne_short h
  have hum : u ∈ s := findOne_mem h
  unfold saveDoc bumpAt
  apply List.map_congr_left
  intro v hv
  by_cases hvc : v.short = c
  · have hvu : v = u :=
      List.inj_on_of_nodup_map hnd hv hum (by rw [hvc, huc])
    subst hvu
    simp [huc, hvc]
  · have : (v.short == u.short) = false := by
      simp [huc]
      exact hvc
    simp [this, hvc]

theorem resolve_store_eq_bumpAt (c : String) (s : Store)
    (hnd : (s.map Link.short).Nodup) :
    (resolveHandler c s).2 = bumpAt c s := by
  cases h : findOne c s with
  | none =>
    have hno : ∀ l ∈ s, l.short ≠ c := (findOne_eq_none_iff c s).1 h
    have : bumpAt c s = s := by
      unfold bumpAt
      have : s.map (fun v => if v.short = c then { v with clicks := v.clicks + 1 } else v)
          = s.map id :=
        List.map_congr_left (fun v hv => by simp [hno v hv])
      simpa using this
    simp [resolveHandler, h, this]
  | some u =>
    simp [resolveHandler, h, saveDoc_eq_bumpAt hnd h]

theorem create_ok_inv {full c uid : String} {now : Nat} {s : Store}
    {L : Link} {s₂ : Store}
    (h : create full c uid now s = .ok (L, s₂)) :
    L = ⟨full, c, 0, uid, now⟩ ∧ s₂ = s ++ [L] ∧ findOne c s = none := by
  unfold create at h
  split at h
  · exact absurd h (by simp)
  · split at h
    · exact absurd h (by simp)
    · rename_i hsome
      have hnone : findOne c s = none := by
        cases hf : findOne c s with
        | none => rfl
        | some u => rw [hf] at hsome; simp at hsome
      obtain ⟨hL, hs⟩ := Prod.mk.injEq .. ▸ (Except.ok.inj h)
      exact ⟨hL.symm, by rw [← hs, hL], hnone⟩

/-- C1: the claim requires that after two concurrent Resolve calls on a
stored code both complete, the stored `clickCount` equals its prior value
plus 2.  The handler of src/server.js increments with
`shortUrl.clicks++; await shortUrl.save()` — a separate read then write —
so the interleaving read₁, read₂, write₁, write₂ (schedule `[0,1,0,1]`)
loses an update: both requests complete and redirect, yet `clicks` ends at
1, not 0 + 2.  The sequential schedule `[0,0,1,1]` does yield 2, isolating
the interleaving as the cause. -/
theorem c1_resolve_loses_concurrent_update :
    (runSched [0, 1, 0, 1]
        [.start "a", .start "a"]
        [⟨"https://example.com", "a", 0, "u1", 0⟩]
      = ([.done (some "https://example.com"), .done (some "https://example.com")],
         [⟨"https://example.com", "a", 1, "u1", 0⟩]))
    ∧ (runSched [0, 0, 1, 1]
        [.start "a", .start "a"]
        [⟨"https://example.com", "a", 0, "u1", 0⟩]
      = ([.done (some "https://example.com"), .done (some "https://example.com")],
         [⟨"https://example.com", "a", 2, "u1", 0⟩])) :=
  ⟨rfl, rfl⟩

/-- C2: with a link of code `c` in the store, one sequential Resolve
returns that link's target URL, and afterwards the stored record for `c`
is the same record with `clickCount` one higher: the fetch and the
increment act on the same record. -/
theorem c2_sequential_resolve_increments_once (c : String) (s : Store)
    (u : Link) (h : findOne c s = some u) :
    (resolveHandler c s).1 = some u.full
    ∧ findOne c (resolveHandler c s).2 = some { u with clicks := u.clicks + 1 } := by
  refine ⟨by simp [resolveHandler, h], ?_⟩
  have : (resolveHandler c s).2 = saveDoc { u with clicks := u.clicks + 1 } s := by
    simp [resolveHandler, h]
  rw [this]
  exact findOne_saveDoc _ h rfl

theorem c2_sequential_resolve_increments_once_witness :
    (resolveHandler "Ab3xQ9z"
        [⟨"https://example.com/a/very/long/path", "Ab3xQ9z", 0, "user1", 0⟩]).1
      = some "https://example.com/a/very/long/path"
    ∧ findOne "Ab3xQ9z"
        (resolveHandler "Ab3xQ9z"
          [⟨"https://example.com/a/very/long/path", "Ab3xQ9z", 0, "user1", 0⟩]).2
      = some ⟨"https://example.com/a/very/long/path", "Ab3xQ9z", 1, "user1", 0⟩ :=
  c2_sequential_resolve_increments_once "Ab3xQ9z"
    [⟨"https://example.com/a/very/long/path", "Ab3xQ9z", 0, "user1", 0⟩]
    ⟨"https://example.com/a/very/long/path", "Ab3xQ9z", 0, "user1", 0⟩ rfl

/-- C4: for a code absent from the store — the empty string included, no
syntax being checked — Resolve responds not-found (404) and leaves the
store as it was, so a second identical Resolve gives the identical
answer: deterministic and repeatable. -/
theorem c4_resolve_not_found_deterministic (c : String) (s : Store)
    (h : ∀ l ∈ s, l.short ≠ c) :
    resolveHandler c s = (none, s)
    ∧ resolveHandler c (resolveHandler c s).2 = (none, s) := by
  have h1 := resolveHandler_none ((findOne_eq_none_iff c s).2 h)
  refine ⟨h1, ?_⟩
  rw [h1]
  exact h1

theorem c4_resolve_not_found_deterministic_witness :
    resolveHandler "" [⟨"https://example.com", "a", 0, "u1", 0⟩]
      = (none, [⟨"https://example.com", "a", 0, "u1", 0⟩])
    ∧ resolveHandler ""
        (resolveHandler "" [⟨"https://example.com", "a", 0, "u1", 0⟩]).2
      = (none, [⟨"https://example.com", "a", 0, "u1", 0⟩]) :=
  c4_resolve_not_found_deterministic ""
    [⟨"https://example.com", "a", 0, "u1", 0⟩] (by decide)

/-- C7: the home page lists exactly the requester's links —
`ShortUrl.find({ userId })` filters on the owner — so for distinct owners
`a ≠ b` no listed link carries owner `b`; every listed link carries
owner `a`. -/
theorem c7_ownership_isolation (a b : String) (s : Store) (hne : b ≠ a) :
    (∀ l ∈ (homeHandler a s).1, l.userId = a)
    ∧ ∀ l ∈ (homeHandler a s).1, l.userId ≠ b := by
  have key : ∀ l ∈ (homeHandler a s).1, l.userId = a := by
    intro l hl
    have := (List.mem_filter.1 hl).2
    simpa using this
  exact ⟨key, fun l hl hb => hne (hb ▸ key l hl)⟩

theorem c7_ownership_isolation_witness :
    (⟨"https://a.example", "c1", 0, "user1", 0⟩ : Link).userId = "user1"
    ∧ (⟨"https://a.example", "c1", 0, "user1", 0⟩ : Link).userId ≠ "user2" := by
  have h := c7_ownership_isolation "user1" "user2"
    [⟨"https://a.example", "c1", 0, "user1", 0⟩,
     ⟨"https://b.example", "c2", 0, "user2", 0⟩] (by decide)
  exact ⟨h.1 _ (by decide), h.2 _ (by decide)⟩

/-- C10: when Resolve fails because no link has code `c`, the handler
renders 404 without touching any document: the store after the call is
exactly the store before, so failed resolutions are never counted as
clicks. -/
theorem c10_not_found_leaves_store_unchanged (c : String) (s : Store)
    (h : ∀ l ∈ s, l.short ≠ c) :
    (resolveHandler c s).2 = s := by
  rw [resolveHandler_none ((findOne_eq_none_iff c s).2 h)]

theorem c10_not_found_leaves_store_unchanged_witness :
    (resolveHandler "doesnotexist"
        [⟨"https://example.com", "a", 3, "u1", 0⟩]).2
      = [⟨"https://example.com", "a", 3, "u1", 0⟩] :=
  c10_not_found_leaves_store_unchanged "doesnotexist"
    [⟨"https://example.com", "a", 3, "u1", 0⟩] (by decide)

theorem le_foldr_max {xs : List Nat} {x : Nat} (hx : x ∈ xs) :
    x ≤ xs.foldr max 0 := by
  induction xs with
  | nil => cases hx
  | cons a t ih =>
    rw [List.foldr_cons]
    rcases List.mem_cons.1 hx with rfl | h
    · exact le_max_left x _
    · exact le_trans (ih h) (le_max_right a _)

theorem allocate_length (s : Store) :
    (allocate s).length = (s.map (fun l => l.short.length)).foldr max 0 + 1 := by
  show (List.replicate ((s.map (fun l => l.short.length)).foldr max 0 + 1) 'a').length = _
  exact List.length_replicate _ _

theorem allocate_fresh (s : Store) : ∀ l ∈ s, l.short ≠ allocate s := by
  intro l hl heq
  have h1 : l.short.length = (allocate s).length := by rw [heq]
  have h2 : l.short.length ≤ (s.map (fun l => l.short.length)).foldr max 0 :=
    le_foldr_max (List.mem_map.2 ⟨l, hl, rfl⟩)
  rw [allocate_length] at h1
  omega

theorem allocate_ne_empty (s : Store) : allocate s ≠ "" := by
  intro h
  have h0 : (allocate s).length = 0 := by rw [h]; rfl
  rw [allocate_length] at h0
  omega

theorem createHandler_ok (full uid : String) (now : Nat) (s : Store)
    (hf : full ≠ "") (hu : uid ≠ "") :
    createHandler full uid now s
      = .ok (⟨full, allocate s, 0, uid, now⟩,
             s ++ [⟨full, allocate s, 0, uid, now⟩]) := by
  have hnone : findOne (allocate s) s = none :=
    (findOne_eq_none_iff _ s).2 (fun l hl => allocate_fresh s l hl)
  simp [createHandler, create, hf, hu, allocate_ne_empty s, hnone]

theorem findOne_append {c : String} {s : Store} (t : Store)
    (h : findOne c s = none) : findOne c (s ++ t) = findOne c t := by
  rw [findOne] at h ⊢
  rw [List.find?_append, h, Option.none_or, findOne]

/-- C3: the unique index on `short` is the authoritative check: with valid
field values, Insert fails with DuplicateCode exactly when the code is
already stored and succeeds exactly when it is not, and inserting a fresh
code preserves distinctness of the stored codes. -/
theorem c3_insert_uniqueness (full c uid : String) (now : Nat) (s : Store)
    (hf : full ≠ "") (hc : c ≠ "") (hu : uid ≠ "")
    (hnd : (s.map Link.short).Nodup) :
    create full c uid now s
      = (if c ∈ s.map Link.short
         then .error .DuplicateCode
         else .ok (⟨full, c, 0, uid, now⟩, s ++ [⟨full, c, 0, uid, now⟩]))
    ∧ (c ∉ s.map Link.short
        → ((s ++ [(⟨full, c, 0, uid, now⟩ : Link)]).map Link.short).Nodup) := by
  constructor
  · by_cases hm : c ∈ s.map Link.short
    · have hss : (findOne c s).isSome = true := (findOne_isSome_iff c s).2 hm
      rw [if_pos hm]
      simp [create, hf, hc, hu, hss]
    · have hss : (findOne c s).isSome = false := by
        cases hq : (findOne c s).isSome with
        | true => exact absurd ((findOne_isSome_iff c s).1 hq) hm
        | false => rfl
      rw [if_neg hm]
      simp [create, hf, hc, hu, hss]
  · intro hm
    rw [List.map_append, List.nodup_append]
    refine ⟨hnd, by simp, ?_⟩
    intro x hx hx2
    simp at hx2
    subst hx2
    exact hm hx

theorem c3_insert_uniqueness_witness :
    (create "https://example.com" "Ab3xQ9z" "user1" 0
        [⟨"https://b.example", "zz", 0, "u2", 3⟩]
      = (if "Ab3xQ9z" ∈ ([(⟨"https://b.example", "zz", 0, "u2", 3⟩ : Link)]).map Link.short
         then .error .DuplicateCode
         else .ok (⟨"https://example.com", "Ab3xQ9z", 0, "user1", 0⟩,
            [(⟨"https://b.example", "zz", 0, "u2", 3⟩ : Link)]
              ++ [⟨"https://example.com", "Ab3xQ9z", 0, "user1", 0⟩])))
    ∧ (([(⟨"https://b.example", "zz", 0, "u2", 3⟩ : Link)]
          ++ [(⟨"https://example.com", "Ab3xQ9z", 0, "user1", 0⟩ : Link)]).map Link.short).Nodup := by
  have h := c3_insert_uniqueness "https://example.com" "Ab3xQ9z" "user1" 0
    [⟨"https://b.example", "zz", 0, "u2", 3⟩]
    (by decide) (by decide) (by decide) (by decide)
  exact ⟨h.1, h.2 (by decide)⟩

/-- C5 counterexample: Create performs no URL-syntax validation — the
string "not a url" is not parseable as a URL, yet Create accepts it and
stores a link for it instead of failing with InvalidUrl. -/
theorem c5_counterexample_unparseable_url_accepted :
    createHandler "not a url" "user1" 0 []
      = .ok (⟨"not a url", "a", 0, "user1", 0⟩,
             [⟨"not a url", "a", 0, "user1", 0⟩]) := rfl

/-- C5 amended: the only input validation Create performs is the schema's
`required` check: an empty targetUrl is rejected (ValidationError, nothing
stored), while every non-empty targetUrl — syntactically a URL or not —
is accepted and stored. -/
theorem c5_amended_only_empty_url_rejected (full uid : String) (now : Nat)
    (s : Store) (hf : full ≠ "") (hu : uid ≠ "") :
    createHandler "" uid now s = .error .ValidationError
    ∧ createHandler full uid now s
        = .ok (⟨full, allocate s, 0, uid, now⟩,
               s ++ [⟨full, allocate s, 0, uid, now⟩]) :=
  ⟨by simp [createHandler, create], createHandler_ok full uid now s hf hu⟩

theorem c5_amended_only_empty_url_rejected_witness :
    createHandler "" "user1" 5 [] = .error .ValidationError
    ∧ createHandler "still not a url" "user1" 5 []
        = .ok (⟨"still not a url", allocate [], 0, "user1", 5⟩,
               [] ++ [⟨"still not a url", allocate [], 0, "user1", 5⟩]) :=
  c5_amended_only_empty_url_rejected "still not a url" "user1" 5 []
    (by decide) (by decide)

/-- C6: round trip — when Create(url, owner) succeeds with Link L, looking
the code of L up returns a link whose target URL is url and whose owner is
owner. -/
theorem c6_round_trip (url owner : String) (now : Nat) (s : Store)
    (L : Link) (s₂ : Store)
    (hok : createHandler url owner now s = .ok (L, s₂)) :
    L.full = url ∧ L.userId = owner ∧ findOne L.short s₂ = some L := by
  have hok' : create url (allocate s) owner now s = .ok (L, s₂) := hok
  obtain ⟨hL, hs, hnone⟩ := create_ok_inv hok'
  subst hL
  subst hs
  refine ⟨rfl, rfl, ?_⟩
  rw [findOne_append _ hnone]
  simp [findOne]

theorem c6_round_trip_witness :
    (⟨"https://example.com/a/very/long/path", "a", 0, "user1", 0⟩ : Link).full
      = "https://example.com/a/very/long/path"
    ∧ (⟨"https://example.com/a/very/long/path", "a", 0, "user1", 0⟩ : Link).userId
      = "user1"
    ∧ findOne (⟨"https://example.com/a/very/long/path", "a", 0, "user1", 0⟩ : Link).short
        [⟨"https://example.com/a/very/long/path", "a", 0, "user1", 0⟩]
      = some ⟨"https://example.com/a/very/long/path", "a", 0, "user1", 0⟩ :=
  c6_round_trip "https://example.com/a/very/long/path" "user1" 0 []
    ⟨"https://example.com/a/very/long/path", "a", 0, "user1", 0⟩
    [⟨"https://example.com/a/very/long/path", "a", 0, "user1", 0⟩] rfl

/-- C8: click counters — a freshly created link starts at 0; all stored
counters stay non-negative across Create and Resolve; Resolve never
decreases any counter; and neither Create (which only appends) nor the
listing ever changes an existing counter: only the Redirect Resolver
mutates `clicks`. -/
theorem c8_click_count_invariants (c full₂ c₂ uid : String) (now : Nat)
    (s : Store) (L : Link) (s₂ : Store)
    (hnd : (s.map Link.short).Nodup)
    (hpos : nonnegClicks s)
    (hok : create full₂ c₂ uid now s = .ok (L, s₂)) :
    L.clicks = 0
    ∧ s₂ = s ++ [L]
    ∧ clicksLe s (resolveHandler c s).2
    ∧ nonnegClicks (resolveHandler c s).2
    ∧ nonnegClicks s₂
    ∧ (homeHandler uid s).2 = s := by
  obtain ⟨hL, hs2, -⟩ := create_ok_inv hok
  have hstore := resolve_store_eq_bumpAt c s hnd
  refine ⟨by rw [hL], hs2, ?_, ?_, ?_, rfl⟩
  · rw [hstore]
    unfold clicksLe bumpAt
    rw [List.forall₂_map_right_iff, List.forall₂_same]
    intro x hx
    by_cases hxc : x.short = c
    · simp [hxc]
    · simp [hxc]
  · rw [hstore]
    intro l hl
    unfold bumpAt at hl
    obtain ⟨v, hv, rfl⟩ := List.mem_map.1 hl
    have := hpos v hv
    by_cases hvc : v.short = c
    · simp [hvc]
      omega
    · simpa [hvc] using this
  · rw [hs2]
    intro l hl
    rcases List.mem_append.1 hl with h | h
    · exact hpos l h
    · have : l = L := by simpa using h
      subst this
      rw [hL]

theorem c8_click_count_invariants_witness :
    (⟨"https://b.example", "b", 0, "u1", 1⟩ : Link).clicks = 0
    ∧ ([⟨"https://example.com", "a", 0, "u1", 0⟩,
        ⟨"https://b.example", "b", 0, "u1", 1⟩] : Store)
        = [⟨"https://example.com", "a", 0, "u1", 0⟩]
            ++ [⟨"https://b.example", "b", 0, "u1", 1⟩]
    ∧ clicksLe [⟨"https://example.com", "a", 0, "u1", 0⟩]
        (resolveHandler "a" [⟨"https://example.com", "a", 0, "u1", 0⟩]).2
    ∧ nonnegClicks (resolveHandler "a" [⟨"https://example.com", "a", 0, "u1", 0⟩]).2
    ∧ nonnegClicks ([⟨"https://example.com", "a", 0, "u1", 0⟩,
        ⟨"https://b.example", "b", 0, "u1", 1⟩] : Store)
    ∧ (homeHandler "u1" [⟨"https://example.com", "a", 0, "u1", 0⟩]).2
        = [⟨"https://example.com", "a", 0, "u1", 0⟩] :=
  c8_click_count_invariants "a" "https://b.example" "b" "u1" 1
    [⟨"https://example.com", "a", 0, "u1", 0⟩]
    ⟨"https://b.example", "b", 0, "u1", 1⟩
    ([⟨"https://example.com", "a", 0, "u1", 0⟩,
      ⟨"https://b.example", "b", 0, "u1", 1⟩] : Store)
    (by decide) (by unfold nonnegClicks; decide) rfl

/-- C9: frame condition — Resolve rewrites the store to `bumpAt c s`,
which touches nothing but the `clicks` field of the document whose code
is `c` (all other fields and all other documents are carried over
verbatim); Create only appends a new document, and the listing leaves the
store untouched. -/
theorem c9_frame_condition (c full₂ c₂ uid : String) (now : Nat)
    (s : Store) (L : Link) (s₂ : Store)
    (hnd : (s.map Link.short).Nodup)
    (hok : create full₂ c₂ uid now s = .ok (L, s₂)) :
    (resolveHandler c s).2 = bumpAt c s
    ∧ s₂ = s ++ [L]
    ∧ (homeHandler uid s).2 = s := by
  obtain ⟨-, hs2, -⟩ := create_ok_inv hok
  exact ⟨resolve_store_eq_bumpAt c s hnd, hs2, rfl⟩

theorem c9_frame_condition_witness :
    (resolveHandler "a"
        [⟨"https://example.com", "a", 4, "u1", 0⟩,
         ⟨"https://b.example", "b", 7, "u2", 1⟩]).2
      = bumpAt "a"
          [⟨"https://example.com", "a", 4, "u1", 0⟩,
           ⟨"https://b.example", "b", 7, "u2", 1⟩]
    ∧ ([⟨"https://example.com", "a", 4, "u1", 0⟩,
        ⟨"https://b.example", "b", 7, "u2", 1⟩,
        ⟨"https://c.example", "d", 0, "u1", 2⟩] : Store)
        = [⟨"https://example.com", "a", 4, "u1", 0⟩,
           ⟨"https://b.example", "b", 7, "u2", 1⟩]
            ++ [⟨"https://c.example", "d", 0, "u1", 2⟩]
    ∧ (homeHandler "u1"
        [⟨"https://example.com", "a", 4, "u1", 0⟩,
         ⟨"https://b.example", "b", 7, "u2", 1⟩]).2
      = [⟨"https://example.com", "a", 4, "u1", 0⟩,
         ⟨"https://b.example", "b", 7, "u2", 1⟩] :=
  c9_frame_condition "a" "https://c.example" "d" "u1" 2
    [⟨"https://example.com", "a", 4, "u1", 0⟩,
     ⟨"https://b.example", "b", 7, "u2", 1⟩]
    ⟨"https://c.example", "d", 0, "u1", 2⟩
    ([⟨"https://example.com", "a", 4, "u1", 0⟩,
      ⟨"https://b.example", "b", 7, "u2", 1⟩,
      ⟨"https://c.example", "d", 0, "u1", 2⟩] : Store)
    (by decide) rfl
